import Mathlib

/-!
Verification development for the spmpup PET SUVR pipeline.

The Python sources (suv.py, suvr.py, suvr_image.py, spm_petproc.py) are
shallowly embedded below.  Volumetric arrays become flat lists of rationals
(numpy float64 arithmetic on the values occurring here is exact, except for
division by zero, which numpy resolves to IEEE-754 nan/±inf with a runtime
warning and no Python exception; the type NpVal makes that behaviour
explicit).  DataFrames of ROI statistics become lists of Row records; an
absent Structure_ID / SUVR column entry is an Option none.
-/

/-- Model of a numpy float64 value as it occurs in this pipeline: an exact
rational, or one of the IEEE-754 special values nan / +inf / -inf produced
by division by zero (numpy's default error state only warns, it never
raises a Python exception for float division by zero). -/
inductive NpVal where
  | finite (q : ℚ)
  | nan
  | inf
  | neginf
deriving DecidableEq, Repr

/-- IEEE-754 style addition on NpVal (the cases numpy float64 `+` realises). -/
def npAdd : NpVal → NpVal → NpVal
  | .finite a, .finite b => .finite (a + b)
  | .nan, _ => .nan
  | _, .nan => .nan
  | .inf, .neginf => .nan
  | .neginf, .inf => .nan
  | .inf, _ => .inf
  | _, .inf => .inf
  | .neginf, _ => .neginf
  | _, .neginf => .neginf

/-- IEEE-754 style multiplication on NpVal. -/
def npMul : NpVal → NpVal → NpVal
  | .finite a, .finite b => .finite (a * b)
  | .nan, _ => .nan
  | _, .nan => .nan
  | .inf, .inf => .inf
  | .inf, .neginf => .neginf
  | .neginf, .inf => .neginf
  | .neginf, .neginf => .inf
  | .inf, .finite b => if 0 < b then .inf else if b < 0 then .neginf else .nan
  | .finite a, .inf => if 0 < a then .inf else if a < 0 then .neginf else .nan
  | .neginf, .finite b => if 0 < b then .neginf else if b < 0 then .inf else .nan
  | .finite a, .neginf => if 0 < a then .neginf else if a < 0 then .inf else .nan

/-- IEEE-754 style division on NpVal: x/0 is ±inf for x ≠ 0 and nan for
x = 0 (numpy float64 semantics with a +0 denominator, warning only). -/
def npDiv : NpVal → NpVal → NpVal
  | .nan, _ => .nan
  | _, .nan => .nan
  | .finite a, .finite b =>
      if b = 0 then (if 0 < a then .inf else if a < 0 then .neginf else .nan)
      else .finite (a / b)
  | .finite _, .inf => .finite 0
  | .finite _, .neginf => .finite 0
  | .inf, .finite b => if 0 ≤ b then .inf else .neginf
  | .neginf, .finite b => if 0 ≤ b then .neginf else .inf
  | .inf, _ => .nan
  | .neginf, _ => .neginf

/-- numpy-style sequential sum of a list of float values (np.sum). -/
def npSum (l : List NpVal) : NpVal := l.foldl npAdd (.finite 0)

/-- np.mean of a list of float values: nan (with a warning) on an empty
list, otherwise the exact sum divided by the length. -/
def npMeanList (l : List ℚ) : NpVal :=
  if l = [] then .nan else .finite (l.sum / l.length)

theorem npAdd_comm (a b : NpVal) : npAdd a b = npAdd b a := by
  cases a <;> cases b <;> simp [npAdd, add_comm]

theorem npDiv_nan_right (a : NpVal) : npDiv a .nan = .nan := by
  cases a <;> simp [npDiv]

/-- One row of the ROI statistics DataFrame built in suv.py.  Structure_ID
and SUVR are optional: composite rows carry no Structure_ID, and the SUVR
column only exists after calculate_suvrlr has added it (a missing entry
behaves as NaN under pandas arithmetic). -/
structure Row where
  structureID : Option ℤ
  structureName : String
  meanSignal : NpVal
  nvoxels : ℕ
  suvr : Option NpVal
deriving DecidableEq, Repr

/-- Reason payload of a Python ValueError raised in the embedded code. -/
inductive PyReason where
  | noMatch (requested : List String)
  | zeroVoxels
  | dimMismatch
  | emptyMask
  | zeroMean
deriving DecidableEq, Repr

/-- The Python exceptions (and sys.exit) the embedded code can surface. -/
inductive PyErr where
  | valueError (r : PyReason)
  | indexError
  | systemExit (code : ℕ)
  | typeError
deriving DecidableEq, Repr

/-! ### np.unique: the ascending list of distinct values of an array -/

/-- Insert an integer into a strictly sorted list, keeping it strictly
sorted and duplicate-free. -/
def insertUnique (x : ℤ) : List ℤ → List ℤ
  | [] => [x]
  | y :: ys => if x < y then x :: y :: ys else if x = y then y :: ys else y :: insertUnique x ys

/-- np.unique on a flattened integer array: ascending distinct values. -/
def npUnique (l : List ℤ) : List ℤ := l.foldr insertUnique []

theorem mem_insertUnique (x a : ℤ) (l : List ℤ) :
    a ∈ insertUnique x l ↔ a = x ∨ a ∈ l := by
  induction l with
  | nil => simp [insertUnique]
  | cons y ys ih =>
    by_cases h1 : x < y
    · simp [insertUnique, h1]
    · by_cases h2 : x = y
      · subst h2
        simp [insertUnique, h1]
      · simp [insertUnique, h1, h2, ih]
        tauto

theorem sorted_insertUnique (x : ℤ) (l : List ℤ) (h : l.Sorted (· < ·)) :
    (insertUnique x l).Sorted (· < ·) := by
  induction l with
  | nil => simp [insertUnique]
  | cons y ys ih =>
    rw [List.sorted_cons] at h
    by_cases h1 : x < y
    · simp only [insertUnique, if_pos h1]
      rw [List.sorted_cons]
      refine ⟨?_, ?_⟩
      · intro b hb
        rcases List.mem_cons.mp hb with hb | hb
        · exact hb ▸ h1
        · exact lt_trans h1 (h.1 b hb)
      · rw [List.sorted_cons]
        exact h
    · by_cases h2 : x = y
      · simp only [insertUnique, if_neg h1, if_pos h2]
        rw [List.sorted_cons]
        exact h
      · have hyx : y < x := by omega
        simp only [insertUnique, if_neg h1, if_neg h2]
        rw [List.sorted_cons]
        refine ⟨?_, ih h.2⟩
        intro b hb
        rcases (mem_insertUnique x b ys).mp hb with hb | hb
        · exact hb ▸ hyx
        · exact h.1 b hb

theorem npUnique_sorted (l : List ℤ) : (npUnique l).Sorted (· < ·) := by
  induction l with
  | nil => simp [npUnique]
  | cons x xs ih => exact sorted_insertUnique x (npUnique xs) ih

theorem mem_npUnique (a : ℤ) (l : List ℤ) : a ∈ npUnique l ↔ a ∈ l := by
  induction l with
  | nil => simp [npUnique]
  | cons x xs ih =>
    show a ∈ insertUnique x (npUnique xs) ↔ _
    rw [mem_insertUnique, ih]
    simp

/-! ### suv.py — extract_roi_data -/

/-- PET values selected by the FOV-intersected mask
np.logical_and(label_data == label, fov_data == 1) (suv.py line 59),
on flattened equal-shape arrays. -/
def fovMaskVals (ld : List ℤ) (pd fd : List ℚ) (l : ℤ) : List ℚ :=
  ((ld.zip (pd.zip fd)).filter (fun t => t.1 = l ∧ t.2.2 = 1)).map (fun t => t.2.1)

/-- PET values selected by the fallback mask label_data >= 1
(suv.py line 67), used when the FOV-intersected mask is empty. -/
def fallbackVals (ld : List ℤ) (pd : List ℚ) : List ℚ :=
  ((ld.zip pd).filter (fun t => 1 ≤ t.1)).map (fun t => t.2)

/-- PET values selected by the unrestricted mask label_data == l
(never built by extract_roi_data; used to state the spec claim). -/
def labelVals (ld : List ℤ) (pd : List ℚ) (l : ℤ) : List ℚ :=
  ((ld.zip pd).filter (fun t => t.1 = l)).map (fun t => t.2)

/-- Number of voxels carrying label l in the unrestricted label volume. -/
def countLabel (ld : List ℤ) (l : ℤ) : ℕ :=
  (ld.filter (fun x => x = l)).length

/-- Loop body of extract_roi_data (suv.py lines 55-82) for one label id l:
voxel_count is the size of the FOV-intersected mask; when it is zero the
PET values are re-taken from the fallback mask label_data >= 1, but the
recorded NVoxels stays voxel_count.  The label name comes from the
FreeSurfer LUT (a plain dict lookup, passed in as lut since
FreeSurferColorLUT.py only provides the static table) with default
"missing". -/
def roiRow (lut : ℤ → Option String) (ld : List ℤ) (pd fd : List ℚ) (l : ℤ) : Row :=
  let fv := fovMaskVals ld pd fd l
  let voxelCount := fv.length
  let petValues := if voxelCount = 0 then fallbackVals ld pd else fv
  { structureID := some l
    structureName := (lut l).getD "missing"
    meanSignal := npMeanList petValues
    nvoxels := voxelCount
    suvr := none }

/-- extract_roi_data (suv.py lines 13-94), after the images are loaded:
one row per distinct label value (np.unique, ascending) except the
sentinel 99999. -/
def extract_roi_data (lut : ℤ → Option String) (ld : List ℤ) (pd fd : List ℚ) : List Row :=
  ((npUnique ld).filter (fun l => l ≠ 99999)).map (roiRow lut ld pd fd)

/-- A label lookup table with no entries (every name resolves to
"missing"); concrete stand-in for FreeSurferColorLUT in witnesses. -/
def lutNone : ℤ → Option String := fun _ => none

/-! ### suv.py — calculate_composite_suvr_and_signal -/

/-- The SUVR entry of a row as pandas arithmetic sees it: a missing
entry is NaN. -/
def suvrVal (r : Row) : NpVal := (r.suvr).getD .nan

/-- df[df["Structure_Name"].isin(roi_names)] (suv.py line 110). -/
def compositeFiltered (names : List String) (df : List Row) : List Row :=
  df.filter (fun r => names.contains r.structureName)

/-- calculate_composite_suvr_and_signal (suv.py lines 97-141): raises
ValueError when no row name is in roi_names, or when the matching rows'
total voxel count is zero; otherwise appends one composite row built
without a Structure_ID entry. -/
def calculate_composite_suvr_and_signal (names : List String) (cname : String)
    (df : List Row) : Except PyErr (List Row) :=
  let filtered := compositeFiltered names df
  if filtered = [] then .error (.valueError (.noMatch names))
  else
    let wsSuvr := npSum (filtered.map (fun r => npMul (.finite (r.nvoxels : ℚ)) (suvrVal r)))
    let wsIntensity := npSum (filtered.map (fun r => npMul (.finite (r.nvoxels : ℚ)) r.meanSignal))
    let totalVoxels := (filtered.map Row.nvoxels).sum
    if totalVoxels = 0 then .error (.valueError .zeroVoxels)
    else
      .ok (df ++ [{ structureID := none
                    structureName := cname
                    meanSignal := npDiv wsIntensity (.finite (totalVoxels : ℚ))
                    nvoxels := totalVoxels
                    suvr := some (npDiv wsSuvr (.finite (totalVoxels : ℚ))) }])

/-! ### suv.py — calculate_suvrlr -/

def leftCereb : String := "Left-Cerebellum-Cortex"

def rightCereb : String := "Right-Cerebellum-Cortex"

/-- The paired-region reference value of calculate_suvrlr (suv.py line
179): (mean_1 * voxels_1 + mean_2 * voxels_2) / (voxels_1 + voxels_2) in
numpy float64 arithmetic (voxel counts are int64, promoted to float64). -/
def refPair (m1 : NpVal) (v1 : ℕ) (m2 : NpVal) (v2 : ℕ) : NpVal :=
  npDiv (npAdd (npMul m1 (.finite (v1 : ℚ))) (npMul m2 (.finite (v2 : ℚ))))
    (.finite ((v1 : ℚ) + (v2 : ℚ)))

/-- calculate_suvrlr (suv.py lines 144-184): looks up the Structure_ID of
the first row named Left- and Right-Cerebellum-Cortex (sys.exit(1) when either
name is absent), re-selects the first row with that id (an uncaught
IndexError when the id matches nothing, including a missing id entry,
which pandas holds as NaN), computes the weighted reference value, and
adds the SUVR column Mean_Signal / ref_value to every row. -/
def calculate_suvrlr (df : List Row) : Except PyErr (List Row × NpVal) :=
  match df.find? (fun r => r.structureName = leftCereb),
      df.find? (fun r => r.structureName = rightCereb) with
  | some rL, some rR =>
    match rL.structureID, rR.structureID with
    | some idL, some idR =>
      match df.find? (fun r => r.structureID = some idL),
          df.find? (fun r => r.structureID = some idR) with
      | some r1, some r2 =>
        let ref := refPair r1.meanSignal r1.nvoxels r2.meanSignal r2.nvoxels
        .ok (df.map (fun r => { r with suvr := some (npDiv r.meanSignal ref) }), ref)
      | _, _ => .error .indexError
    | _, _ => .error .indexError
  | _, _ => .error (.systemExit 1)

/-! ### suv.py — calculate_suvr (Mode A / Mode B rows, then composites) -/

/-- Does the character list hay start with needle? -/
def listStartsWith : List Char → List Char → Bool
  | [], _ => true
  | _ :: _, [] => false
  | a :: as, b :: bs => a == b && listStartsWith (a :: as).tail (b :: bs).tail

/-- Does the character list hay contain needle as a contiguous run? -/
def listContainsSub (needle : List Char) : List Char → Bool
  | [] => needle.isEmpty
  | c :: rest => listStartsWith needle (c :: rest) || listContainsSub needle rest

/-- Lower-case a character list (ASCII case folding). -/
def lowerChars (l : List Char) : List Char := l.map Char.toLower

/-- pandas Series.str.contains(pat, case=False): case-insensitive
containment.  The ROI names used by calculate_suvr hold no regex
metacharacters, so the regex search coincides with plain containment. -/
def containsCI (hay needle : String) : Bool :=
  listContainsSub (lowerChars needle.toList) (lowerChars hay.toList)

/-- Rows whose Structure_Name contains roiName case-insensitively
(suv.py lines 214-216). -/
def matchingRows (df : List Row) (roiName : String) : List Row :=
  df.filter (fun r => containsCI r.structureName roiName)

/-- Mode A loop body of calculate_suvr (suv.py lines 212-239): on an empty
match a zero row is emitted (after a printed warning); otherwise the
voxel-weighted mean and its ratio to the reference value. -/
def modeAStep (df : List Row) (ref : NpVal) (roiName : String) : Row :=
  let matching := matchingRows df roiName
  if matching = [] then
    { structureID := none, structureName := roiName,
      meanSignal := .finite 0, nvoxels := 0, suvr := some (.finite 0) }
  else
    let totalVoxels := (matching.map Row.nvoxels).sum
    let weightedMean :=
      npDiv (npSum (matching.map (fun r => npMul r.meanSignal (.finite (r.nvoxels : ℚ)))))
        (.finite (totalVoxels : ℚ))
    { structureID := none, structureName := roiName,
      meanSignal := weightedMean, nvoxels := totalVoxels,
      suvr := some (npDiv weightedMean ref) }

/-- True exactly when the Mode A branch prints its non-fatal
"Warning: No matching ROIs found" message (suv.py lines 218-221). -/
def modeAWarns (df : List Row) (roiName : String) : Bool :=
  (matchingRows df roiName).isEmpty

/-- Mode B loop body (suv.py lines 240-271) for one case prefix c
("ctx" or "wm"): rows matching the pattern c-[lr]h-roiName. -/
def modeBStep (df : List Row) (ref : NpVal) (c : String) (roiName : String) : Row :=
  let matching := df.filter (fun r =>
    containsCI r.structureName (c ++ "-lh-" ++ roiName)
      || containsCI r.structureName (c ++ "-rh-" ++ roiName))
  if matching = [] then
    { structureID := none, structureName := c ++ "-" ++ roiName,
      meanSignal := .finite 0, nvoxels := 0, suvr := some (.finite 0) }
  else
    let totalVoxels := (matching.map Row.nvoxels).sum
    let weightedMean :=
      npDiv (npSum (matching.map (fun r => npMul r.meanSignal (.finite (r.nvoxels : ℚ)))))
        (.finite (totalVoxels : ℚ))
    { structureID := none, structureName := c ++ "-" ++ roiName,
      meanSignal := weightedMean, nvoxels := totalVoxels,
      suvr := some (npDiv weightedMean ref) }

/-- calculate_suvr (suv.py lines 187-308).  The ROIs table lives in
FreeSurferColorLUT.py, which only provides this static dict, so it is a
parameter: an ordered list of (name, mode) pairs; mode 4 triggers the
cortex/white-matter split, every other mode is the direct Mode A.  The
five fixed composite rules then run in order, each able to raise. -/
def calculate_suvr (spec : List (String × ℕ)) (df : List Row) (ref : NpVal) :
    Except PyErr (List Row) := do
  let base := spec.foldr (fun p acc =>
    (if p.2 ≠ 4 then [modeAStep df ref p.1]
     else [modeBStep df ref "ctx" p.1, modeBStep df ref "wm" p.1]) ++ acc) []
  let d1 ← calculate_composite_suvr_and_signal
    ["ctx-lateralorbitofrontal", "ctx-medialorbitofrontal"] "GR_FS" base
  let d2 ← calculate_composite_suvr_and_signal
    ["ctx-middletemporal", "ctx-superiortemporal"] "TEMP_FS" d1
  let d3 ← calculate_composite_suvr_and_signal
    ["ctx-cuneus", "ctx-lingual"] "OCC_FS" d2
  let d4 ← calculate_composite_suvr_and_signal
    ["ctx-rostralmiddlefrontal", "ctx-superiorfrontal"] "PREF_FS" d3
  calculate_composite_suvr_and_signal
    ["GR_FS", "TEMP_FS", "OCC_FS", "PREF_FS", "ctx-precuneus"] "MC" d4

/-! ### suvr_image.py — compute_suvr -/

/-- A loaded NIfTI image: flattened voxel data, shape, affine, header.
Affine and header are opaque payloads that compute_suvr copies through. -/
structure Nifti where
  data : List ℚ
  shape : List ℕ
  affine : List (List ℚ)
  header : List ℕ
deriving DecidableEq, Repr

/-- pet_data[mask_data > 0] on flattened equal-shape arrays
(suvr_image.py line 101). -/
def maskedValues (petData maskData : List ℚ) : List ℚ :=
  ((petData.zip maskData).filter (fun pm => 0 < pm.2)).map (fun pm => pm.1)

/-- The scalar reference value np.mean(masked_values)
(suvr_image.py line 107). -/
def refMean (petData maskData : List ℚ) : ℚ :=
  (maskedValues petData maskData).sum / ((maskedValues petData maskData).length : ℚ)

/-- Numeric core of compute_suvr (suvr_image.py lines 94-118), after both
images are loaded: shape check, empty-selection check, zero-mean check,
then elementwise division, with the PET affine and header copied to the
output (file-system errors of the loading phase are outside this model). -/
def compute_suvr (pet maskImg : Nifti) : Except PyErr Nifti :=
  if pet.shape ≠ maskImg.shape then .error (.valueError .dimMismatch)
  else if maskedValues pet.data maskImg.data = [] then .error (.valueError .emptyMask)
  else if refMean pet.data maskImg.data = 0 then .error (.valueError .zeroMean)
  else
    .ok { data := pet.data.map (fun x => x / refMean pet.data maskImg.data)
          shape := pet.shape
          affine := pet.affine
          header := pet.header }

/-! ### spm_petproc.py line 95 — the call into compute_suvr -/

/-- Python positional-call check: calling a function that declares
numParams parameters, the last numDefaults of them with default values,
with nargs positional arguments raises TypeError unless
numParams - numDefaults <= nargs <= numParams. -/
def pyPositionalCall (numParams numDefaults nargs : ℕ) : Except PyErr Unit :=
  if numParams < nargs ∨ nargs < numParams - numDefaults then .error .typeError
  else .ok ()

/-- compute_suvr is declared as
def compute_suvr(pet_image_path, ref_region, output_path)
(suvr_image.py line 17): three parameters, none optional, no FOV. -/
def compute_suvr_num_params : ℕ := 3

/-- compute_suvr declares no default values. -/
def compute_suvr_num_defaults : ℕ := 0

/-- run_pup passes four positional arguments:
compute_suvr(unzip_msum_norm, ref_region_path, suvr_img_path,
unzip_petfov_norm) (spm_petproc.py line 95). -/
def run_pup_suvr_call_nargs : ℕ := 4

/-! ### suvr.py — extract_suv -/

/-- One row of the simple-variant output CSV (Label, ROI_Name,
NonZeroVoxelCount, MeanValue). -/
structure SuvRow where
  label : ℤ
  roiName : String
  nonZeroVoxelCount : ℕ
  meanValue : ℚ
deriving DecidableEq, Repr

/-- atlas_data after the optional FOV multiplication
atlas_data = atlas_data * fov_data (suvr.py line 98); without a FOV the
integer atlas values are used as loaded. -/
def atlasWithFov (atlasData : List ℤ) : Option (List ℚ) → List ℚ
  | none => atlasData.map (fun a => (a : ℚ))
  | some fov => (atlasData.zip fov).map (fun t => (t.1 : ℚ) * t.2)

/-- Loop body of extract_suv (suvr.py lines 123-146) for one labels-file
entry: PET values inside the atlas region, restricted to non-zero values;
mean and count are 0 when no non-zero value exists. -/
def suvRowFor (atlasD : List ℚ) (petData : List ℚ) (li : ℤ) (name : String) : SuvRow :=
  let roiVals := ((atlasD.zip petData).filter (fun t => t.1 = (li : ℚ))).map (fun t => t.2)
  let nonZero := roiVals.filter (fun v => v ≠ 0)
  if 0 < nonZero.length then
    { label := li, roiName := name,
      nonZeroVoxelCount := nonZero.length,
      meanValue := nonZero.sum / (nonZero.length : ℚ) }
  else
    { label := li, roiName := name, nonZeroVoxelCount := 0, meanValue := 0 }

/-- Row-building core of extract_suv (suvr.py lines 42-149): one row per
parsed labels-file entry, in the file's order. -/
def extract_suv (atlasData : List ℤ) (petData : List ℚ)
    (labelsList : List (ℤ × String)) (fov : Option (List ℚ)) : List SuvRow :=
  labelsList.map (fun p => suvRowFor (atlasWithFov atlasData fov) petData p.1 p.2)

/-! ### Claim theorems -/

/-- C6: for every label volume with integer voxel labels, extract_roi_data
produces exactly one row per distinct label value except the sentinel
99999 (which never gets a row, while 0 does when present), and the rows
appear in ascending Structure_ID order. -/
theorem extract_roi_data_rows_unique_sorted (lut : ℤ → Option String)
    (ld : List ℤ) (pd fd : List ℚ) :
    (extract_roi_data lut ld pd fd).map Row.structureID
      = ((npUnique ld).filter (fun l => l ≠ 99999)).map some
    ∧ ((npUnique ld).filter (fun l => l ≠ 99999)).Sorted (· < ·)
    ∧ (∀ l : ℤ, some l ∈ (extract_roi_data lut ld pd fd).map Row.structureID
        ↔ l ∈ ld ∧ l ≠ 99999)
    ∧ ((extract_roi_data lut ld pd fd).map Row.structureID).Nodup := by
  have h1 : (extract_roi_data lut ld pd fd).map Row.structureID
      = ((npUnique ld).filter (fun l => l ≠ 99999)).map some := by
    unfold extract_roi_data
    rw [List.map_map]
    exact List.map_congr_left (fun a _ => rfl)
  have hsorted : ((npUnique ld).filter (fun l => l ≠ 99999)).Sorted (· < ·) :=
    (npUnique_sorted ld).filter _
  have hnodup : ((npUnique ld).filter (fun l => l ≠ 99999)).Nodup :=
    hsorted.imp (fun hab => ne_of_lt hab)
  refine ⟨h1, hsorted, ?_, ?_⟩
  · intro l
    rw [h1]
    simp [List.mem_filter, mem_npUnique]
  · rw [h1]
    exact hnodup.map (Option.some_injective ℤ)

/-- C6 witness: on the label volume [0, 2, 99999] the label 0 gets exactly
one row and the sentinel 99999 gets none. -/
theorem extract_roi_data_rows_unique_sorted_witness :
    ((extract_roi_data lutNone [0, 2, 99999] [1, 1, 1] [1, 1, 1]).map Row.structureID).Nodup
    ∧ some 0 ∈ (extract_roi_data lutNone [0, 2, 99999] [1, 1, 1] [1, 1, 1]).map Row.structureID
    ∧ ¬ some 99999 ∈ (extract_roi_data lutNone [0, 2, 99999] [1, 1, 1] [1, 1, 1]).map
        Row.structureID := by
  have h := extract_roi_data_rows_unique_sorted lutNone [0, 2, 99999] [1, 1, 1] [1, 1, 1]
  refine ⟨h.2.2.2, (h.2.2.1 0).mpr ⟨by decide, by decide⟩, fun hm => ?_⟩
  exact (by decide : ¬((99999 : ℤ) ∈ ([0, 2, 99999] : List ℤ) ∧ (99999 : ℤ) ≠ 99999))
    ((h.2.2.1 99999).mp hm)

/-- C1 counterexample: label 2 lies entirely outside the FOV; the claim
says its row keeps NVoxels = countLabel ld 2 = 1 (the unrestricted count)
and the fallback mean over label == 2 (namely 20); the code instead
records NVoxels = 0 and the mean 15 over every labelled voxel
(label >= 1). -/
theorem extract_roi_data_fov_fallback_cex :
    (extract_roi_data lutNone [1, 2] [10, 20] [1, 0]).map Row.nvoxels = [1, 0]
    ∧ countLabel [1, 2] 2 = 1
    ∧ (extract_roi_data lutNone [1, 2] [10, 20] [1, 0]).map Row.nvoxels
        ≠ [1, countLabel [1, 2] 2]
    ∧ (extract_roi_data lutNone [1, 2] [10, 20] [1, 0]).map Row.meanSignal
        = [.finite 10, .finite 15]
    ∧ npMeanList (labelVals [1, 2] [10, 20] 2) = .finite 20 := by
  have hm : (extract_roi_data lutNone [1, 2] [10, 20] [1, 0]).map Row.nvoxels = [1, 0] := by
    norm_num [extract_roi_data, roiRow, npUnique, insertUnique, fovMaskVals, fallbackVals,
      npMeanList, lutNone, List.zip, List.filter]
  refine ⟨hm, by decide, ?_, ?_, ?_⟩
  · rw [hm]
    decide
  · norm_num [extract_roi_data, roiRow, npUnique, insertUnique, fovMaskVals, fallbackVals,
      npMeanList, lutNone, List.zip, List.filter]
    exact fun h => (List.cons_ne_nil _ _ h).elim
  · norm_num [npMeanList, labelVals, List.zip, List.filter]

/-- C1 amended: when the FOV-intersected mask of a label selects zero
voxels, extract_roi_data falls back to the mask label_data >= 1 (all
labelled voxels, with no FOV restriction and no restriction to the label
id) for the mean, and the returned NVoxels is 0, not the unrestricted
count of the label. -/
theorem roiRow_fov_fallback_amended (lut : ℤ → Option String) (ld : List ℤ)
    (pd fd : List ℚ) (l : ℤ) (h : fovMaskVals ld pd fd l = []) :
    (roiRow lut ld pd fd l).nvoxels = 0
    ∧ (roiRow lut ld pd fd l).meanSignal = npMeanList (fallbackVals ld pd)
    ∧ extract_roi_data lut ld pd fd
        = ((npUnique ld).filter (fun x => x ≠ 99999)).map (roiRow lut ld pd fd) := by
  refine ⟨?_, ?_, rfl⟩ <;> simp [roiRow, h]

/-- C1 amended witness: the fallback at label 2 of the counterexample
volume. -/
theorem roiRow_fov_fallback_amended_witness :
    fovMaskVals [1, 2] [10, 20] [1, 0] 2 = []
    ∧ ((roiRow lutNone [1, 2] [10, 20] [1, 0] 2).nvoxels = 0
      ∧ (roiRow lutNone [1, 2] [10, 20] [1, 0] 2).meanSignal
          = npMeanList (fallbackVals [1, 2] [10, 20])
      ∧ extract_roi_data lutNone [1, 2] [10, 20] [1, 0]
          = ((npUnique [1, 2]).filter (fun x => x ≠ 99999)).map
              (roiRow lutNone [1, 2] [10, 20] [1, 0])) :=
  ⟨by decide, roiRow_fov_fallback_amended lutNone [1, 2] [10, 20] [1, 0] 2 (by decide)⟩

/-- The left-cerebellum row of a minimal statistics table (FreeSurfer id 8). -/
def cerebRowL (q : ℚ) (v : ℕ) : Row :=
  { structureID := some 8, structureName := leftCereb,
    meanSignal := .finite q, nvoxels := v, suvr := none }

/-- The right-cerebellum row of a minimal statistics table (FreeSurfer id 47). -/
def cerebRowR (q : ℚ) (v : ℕ) : Row :=
  { structureID := some 47, structureName := rightCereb,
    meanSignal := .finite q, nvoxels := v, suvr := none }

/-- A two-row table holding exactly the paired reference regions. -/
def cerebTable (q1 : ℚ) (v1 : ℕ) (q2 : ℚ) (v2 : ℕ) : List Row :=
  [cerebRowL q1 v1, cerebRowR q2 v2]

/-- The reference value calculate_suvrlr returns, when it succeeds. -/
def suvrlrRef (df : List Row) : Option NpVal :=
  match calculate_suvrlr df with
  | .ok p => some p.2
  | .error _ => none

theorem refPair_comm (m1 m2 : NpVal) (w1 w2 : ℕ) :
    refPair m1 w1 m2 w2 = refPair m2 w2 m1 w1 := by
  unfold refPair
  rw [npAdd_comm, add_comm ((w1 : ℚ)) ((w2 : ℚ))]

theorem refPair_zero_voxels (m1 m2 : NpVal) : refPair m1 0 m2 0 = .nan := by
  cases m1 <;> cases m2 <;> norm_num [refPair, npMul, npAdd, npDiv]

theorem calculate_suvrlr_cerebTable (q1 : ℚ) (v1 : ℕ) (q2 : ℚ) (v2 : ℕ) :
    calculate_suvrlr (cerebTable q1 v1 q2 v2)
      = .ok ((cerebTable q1 v1 q2 v2).map (fun r =>
            { r with suvr := some (npDiv r.meanSignal (refPair (.finite q1) v1 (.finite q2) v2)) }),
          refPair (.finite q1) v1 (.finite q2) v2) := by
  simp [calculate_suvrlr, cerebTable, cerebRowL, cerebRowR, List.find?, leftCereb, rightCereb]

/-- C7: the paired-region reference value of calculate_suvrlr is
(mean_left*voxels_left + mean_right*voxels_right)/(voxels_left+voxels_right)
and is order-independent: exchanging the two regions' (mean, voxel-count)
pairs yields the same reference value. -/
theorem calculate_suvrlr_ref_formula_symm (q1 q2 : ℚ) (v1 v2 : ℕ) (h : v1 + v2 ≠ 0) :
    refPair (.finite q1) v1 (.finite q2) v2
        = .finite ((q1 * v1 + q2 * v2) / ((v1 : ℚ) + (v2 : ℚ)))
    ∧ (∀ (m1 m2 : NpVal) (w1 w2 : ℕ), refPair m1 w1 m2 w2 = refPair m2 w2 m1 w1)
    ∧ suvrlrRef (cerebTable q1 v1 q2 v2) = suvrlrRef (cerebTable q2 v2 q1 v1)
    ∧ suvrlrRef (cerebTable q1 v1 q2 v2) = some (refPair (.finite q1) v1 (.finite q2) v2) := by
  have hne : ((v1 : ℚ) + (v2 : ℚ)) ≠ 0 := by
    have : ((v1 + v2 : ℕ) : ℚ) ≠ 0 := Nat.cast_ne_zero.mpr h
    rwa [Nat.cast_add] at this
  refine ⟨?_, refPair_comm, ?_, ?_⟩
  · simp [refPair, npMul, npAdd, npDiv, hne]
  · rw [suvrlrRef, suvrlrRef, calculate_suvrlr_cerebTable, calculate_suvrlr_cerebTable]
    simp [refPair_comm (NpVal.finite q1) (NpVal.finite q2) v1 v2]
  · rw [suvrlrRef, calculate_suvrlr_cerebTable]

/-- C7 witness: at means 2 and 4 with voxel counts 3 and 1 the reference
value is (2*3 + 4*1)/4 = 5/2, however the two regions are ordered. -/
theorem calculate_suvrlr_ref_formula_symm_witness :
    (3 : ℕ) + 1 ≠ 0
    ∧ (refPair (.finite 2) 3 (.finite 4) 1
          = .finite ((2 * 3 + 4 * 1) / ((3 : ℚ) + (1 : ℚ)))
      ∧ (∀ (m1 m2 : NpVal) (w1 w2 : ℕ), refPair m1 w1 m2 w2 = refPair m2 w2 m1 w1)
      ∧ suvrlrRef (cerebTable 2 3 4 1) = suvrlrRef (cerebTable 4 1 2 3)
      ∧ suvrlrRef (cerebTable 2 3 4 1) = some (refPair (.finite 2) 3 (.finite 4) 1)) :=
  ⟨by decide, calculate_suvrlr_ref_formula_symm 2 4 3 1 (by decide)⟩

/-- A statistics table whose two cerebellum rows both carry zero voxels
(a label volume fully outside the FOV produces exactly this via the
extract_roi_data fallback). -/
def dfZeroVox : List Row := cerebTable 5 0 7 0

/-- A statistics table whose paired reference value is exactly zero:
means 1 and -1 with one voxel each. -/
def dfZeroRef : List Row := cerebTable 1 1 (-1) 1

/-- C4 counterexample: with both cerebellum voxel counts zero,
calculate_suvrlr returns successfully with reference value nan (numpy
0.0/0 only warns); with a reference value of exactly zero it also returns
successfully, producing ±inf SUVR values — no DivisionByZero failure and
no process termination in either case. -/
theorem calculate_suvrlr_zero_division_cex :
    calculate_suvrlr dfZeroVox
      = .ok (dfZeroVox.map (fun r => { r with suvr := some NpVal.nan }), NpVal.nan)
    ∧ calculate_suvrlr dfZeroRef
      = .ok ([{ cerebRowL 1 1 with suvr := some NpVal.inf },
              { cerebRowR (-1) 1 with suvr := some NpVal.neginf }], .finite 0) := by
  constructor
  · rw [dfZeroVox, calculate_suvrlr_cerebTable, refPair_zero_voxels]
    simp [npDiv_nan_right]
  · rw [dfZeroRef, calculate_suvrlr_cerebTable]
    have hzero : refPair (.finite 1) 1 (.finite (-1)) 1 = .finite 0 := by
      norm_num [refPair, npMul, npAdd, npDiv]
    rw [hzero]
    norm_num [cerebTable, cerebRowL, cerebRowR, npDiv]

/-- C4 amended: calculate_suvrlr never raises a division error.  When both
reference rows carry zero voxels it returns successfully with reference
value nan (0.0/0 in numpy float64 arithmetic, which only warns) and every
SUVR entry nan; a reference value of exactly zero likewise yields ±inf/nan
SUVR values rather than a fatal error. -/
theorem calculate_suvrlr_zero_voxels_nan
    (df : List Row) (rL rR r1 r2 : Row) (idL idR : ℤ)
    (hL : df.find? (fun r => r.structureName = leftCereb) = some rL)
    (hR : df.find? (fun r => r.structureName = rightCereb) = some rR)
    (hiL : rL.structureID = some idL) (hiR : rR.structureID = some idR)
    (h1 : df.find? (fun r => r.structureID = some idL) = some r1)
    (h2 : df.find? (fun r => r.structureID = some idR) = some r2)
    (hv1 : r1.nvoxels = 0) (hv2 : r2.nvoxels = 0) :
    calculate_suvrlr df
      = .ok (df.map (fun r => { r with suvr := some NpVal.nan }), NpVal.nan) := by
  unfold calculate_suvrlr
  rw [hL, hR]
  simp only [hiL, hiR, h1, h2]
  rw [hv1, hv2, refPair_zero_voxels]
  simp [npDiv_nan_right]

/-- C4 amended witness: the zero-voxel table dfZeroVox. -/
theorem calculate_suvrlr_zero_voxels_nan_witness :
    dfZeroVox.find? (fun r => r.structureName = leftCereb) = some (cerebRowL 5 0)
    ∧ calculate_suvrlr dfZeroVox
        = .ok (dfZeroVox.map (fun r => { r with suvr := some NpVal.nan }), NpVal.nan) :=
  ⟨by simp [dfZeroVox, cerebTable, cerebRowL, cerebRowR, List.find?, leftCereb],
   calculate_suvrlr_zero_voxels_nan dfZeroVox (cerebRowL 5 0) (cerebRowR 7 0)
     (cerebRowL 5 0) (cerebRowR 7 0) 8 47
     (by simp [dfZeroVox, cerebTable, cerebRowL, cerebRowR, List.find?, leftCereb])
     (by simp [dfZeroVox, cerebTable, cerebRowL, cerebRowR, List.find?, leftCereb, rightCereb])
     rfl rfl
     (by simp [dfZeroVox, cerebTable, cerebRowL, cerebRowR, List.find?])
     (by simp [dfZeroVox, cerebTable, cerebRowL, cerebRowR, List.find?])
     rfl rfl⟩

/-- A table holding only one of GR_FS's two constituents. -/
def dfOneConstituent : List Row :=
  [{ structureID := none, structureName := "ctx-lateralorbitofrontal",
     meanSignal := .finite 2, nvoxels := 3, suvr := some (.finite 1) }]

/-- C5 counterexample: "ctx-medialorbitofrontal" is absent from the table,
yet the GR_FS composite rule succeeds (building the composite from the one
present constituent alone) instead of failing with an error naming the
missing constituent. -/
theorem composite_missing_constituent_cex :
    dfOneConstituent.filter (fun r => r.structureName = "ctx-medialorbitofrontal") = []
    ∧ calculate_composite_suvr_and_signal
        ["ctx-lateralorbitofrontal", "ctx-medialorbitofrontal"] "GR_FS" dfOneConstituent
      = .ok (dfOneConstituent ++
          [{ structureID := none, structureName := "GR_FS",
             meanSignal := .finite 2, nvoxels := 3, suvr := some (.finite 1) }]) := by
  constructor
  · simp [dfOneConstituent]
  · norm_num [calculate_composite_suvr_and_signal, compositeFiltered, dfOneConstituent,
      suvrVal, npSum, npMul, npAdd, npDiv, List.filter, List.contains, List.elem]

/-- C5 amended: a composite-definition rule fails exactly when no row of
the table is named by any of its constituents (the raised ValueError then
lists the whole requested constituent list, not the specific missing one)
or when the matching rows' combined voxel total is zero; a rule with at
least one present constituent succeeds. -/
theorem composite_failure_characterization (names : List String) (cname : String)
    (df : List Row) :
    (calculate_composite_suvr_and_signal names cname df
        = .error (.valueError (.noMatch names)) ↔ compositeFiltered names df = [])
    ∧ (calculate_composite_suvr_and_signal names cname df
        = .error (.valueError .zeroVoxels)
        ↔ compositeFiltered names df ≠ []
          ∧ ((compositeFiltered names df).map Row.nvoxels).sum = 0)
    ∧ (∀ e, calculate_composite_suvr_and_signal names cname df = .error e →
        e = .valueError (.noMatch names) ∨ e = .valueError .zeroVoxels) := by
  refine ⟨?_, ?_, ?_⟩
  · simp only [calculate_composite_suvr_and_signal]
    split_ifs with hf ht <;> simp_all
  · simp only [calculate_composite_suvr_and_signal]
    split_ifs with hf ht <;> simp_all
  · intro e he
    simp only [calculate_composite_suvr_and_signal] at he
    split_ifs at he
    · injection he with h
      exact Or.inl h.symm
    · injection he with h
      exact Or.inr h.symm

/-- C5 amended witness: on the empty table the GR_FS-style rule fails with
the ValueError carrying the full requested list. -/
theorem composite_failure_characterization_witness :
    calculate_composite_suvr_and_signal ["Q"] "X" []
      = .error (.valueError (.noMatch ["Q"])) :=
  (composite_failure_characterization ["Q"] "X" []).1.mpr (by simp [compositeFiltered])

/-- C10: every composite row appended by calculate_composite_suvr_and_signal
is built from Structure_Name, Mean_Signal, NVoxels and SUVR only; its
Structure_ID is left unset (none) in the resulting table. -/
theorem composite_row_structure_id_none (names : List String) (cname : String)
    (df out : List Row)
    (h : calculate_composite_suvr_and_signal names cname df = .ok out) :
    ∃ newRow : Row, out = df ++ [newRow]
      ∧ newRow.structureID = none ∧ newRow.structureName = cname := by
  simp only [calculate_composite_suvr_and_signal] at h
  split_ifs at h
  injection h with h2
  exact ⟨_, h2.symm, rfl, rfl⟩

/-- Input table of the C10 witness. -/
def dfCompW : List Row :=
  [{ structureID := some 1, structureName := "A",
     meanSignal := .finite 1, nvoxels := 1, suvr := some (.finite 1) }]

/-- Output table of the C10 witness. -/
def outCompW : List Row :=
  dfCompW ++ [{ structureID := none, structureName := "X",
                meanSignal := .finite 1, nvoxels := 1, suvr := some (.finite 1) }]

/-- C10 witness: a concrete successful composite call whose appended row
carries no Structure_ID. -/
theorem composite_row_structure_id_none_witness :
    calculate_composite_suvr_and_signal ["A"] "X" dfCompW = .ok outCompW
    ∧ ∃ newRow : Row, outCompW = dfCompW ++ [newRow]
        ∧ newRow.structureID = none ∧ newRow.structureName = "X" := by
  have hcall : calculate_composite_suvr_and_signal ["A"] "X" dfCompW = .ok outCompW := by
    norm_num [calculate_composite_suvr_and_signal, compositeFiltered, dfCompW, outCompW,
      suvrVal, npSum, npMul, npAdd, npDiv, List.filter, List.contains, List.elem]
  exact ⟨hcall, composite_row_structure_id_none ["A"] "X" dfCompW outCompW hcall⟩

theorem mem_maskedValues {p m : List ℚ} {y : ℚ} (h : y ∈ maskedValues p m) : y ∈ p := by
  unfold maskedValues at h
  rcases List.mem_map.mp h with ⟨t, ht, rfl⟩
  exact (List.of_mem_zip (List.mem_filter.mp ht).1).1

theorem sum_const_list {l : List ℚ} {V : ℚ} (h : ∀ x ∈ l, x = V) :
    l.sum = V * l.length := by
  induction l with
  | nil => simp
  | cons a t ih =>
    have ha : a = V := h a (by simp)
    have ht : t.sum = V * t.length := ih (fun x hx => h x (by simp [hx]))
    simp [List.sum_cons, ha, ht]
    ring

/-- C3: with matching shapes, compute_suvr raises a ValueError exactly when
the mask>0 selection is empty or its mean is exactly zero; on success the
output data is the PET data divided elementwise by that mean, and the
output keeps the PET affine and header unmodified; in particular a
constant-intensity PET volume yields an output that is uniformly 1. -/
theorem compute_suvr_spec (pet maskImg : Nifti) (hsh : pet.shape = maskImg.shape) :
    ((∃ r, compute_suvr pet maskImg = .error (.valueError r))
        ↔ maskedValues pet.data maskImg.data = [] ∨ refMean pet.data maskImg.data = 0)
    ∧ (∀ out, compute_suvr pet maskImg = .ok out →
        out.data = pet.data.map (fun x => x / refMean pet.data maskImg.data)
          ∧ out.affine = pet.affine ∧ out.header = pet.header)
    ∧ (∀ (V : ℚ) (out : Nifti), (∀ x ∈ pet.data, x = V) →
        compute_suvr pet maskImg = .ok out → ∀ y ∈ out.data, y = 1) := by
  have hc : compute_suvr pet maskImg
      = (if maskedValues pet.data maskImg.data = [] then .error (.valueError .emptyMask)
         else if refMean pet.data maskImg.data = 0 then .error (.valueError .zeroMean)
         else .ok { data := pet.data.map (fun x => x / refMean pet.data maskImg.data),
                    shape := pet.shape, affine := pet.affine, header := pet.header }) := by
    simp [compute_suvr, hsh]
  refine ⟨⟨?_, ?_⟩, ?_, ?_⟩
  · rintro ⟨r, hr⟩
    rw [hc] at hr
    by_cases hmv : maskedValues pet.data maskImg.data = []
    · exact Or.inl hmv
    · by_cases hm : refMean pet.data maskImg.data = 0
      · exact Or.inr hm
      · rw [if_neg hmv, if_neg hm] at hr
        exact absurd hr (by simp)
  · intro hor
    by_cases hmv : maskedValues pet.data maskImg.data = []
    · exact ⟨.emptyMask, by rw [hc, if_pos hmv]⟩
    · rcases hor with hmv2 | hm
      · exact absurd hmv2 hmv
      · exact ⟨.zeroMean, by rw [hc, if_neg hmv, if_pos hm]⟩
  · intro out hout
    rw [hc] at hout
    by_cases hmv : maskedValues pet.data maskImg.data = []
    · rw [if_pos hmv] at hout
      exact absurd hout (by simp)
    · rw [if_neg hmv] at hout
      by_cases hm : refMean pet.data maskImg.data = 0
      · rw [if_pos hm] at hout
        exact absurd hout (by simp)
      · rw [if_neg hm] at hout
        injection hout with h2
        rw [← h2]
        exact ⟨rfl, rfl, rfl⟩
  · intro V out hconst hout y hy
    rw [hc] at hout
    by_cases hmv : maskedValues pet.data maskImg.data = []
    · rw [if_pos hmv] at hout
      exact absurd hout (by simp)
    · rw [if_neg hmv] at hout
      by_cases hm : refMean pet.data maskImg.data = 0
      · rw [if_pos hm] at hout
        exact absurd hout (by simp)
      · rw [if_neg hm] at hout
        injection hout with h2
        have hdata : out.data = pet.data.map (fun x => x / refMean pet.data maskImg.data) := by
          rw [← h2]
        have hmean : refMean pet.data maskImg.data = V := by
          unfold refMean
          have hall : ∀ x ∈ maskedValues pet.data maskImg.data, x = V :=
            fun x hx => hconst x (mem_maskedValues hx)
          rw [sum_const_list hall]
          have hlen : ((maskedValues pet.data maskImg.data).length : ℚ) ≠ 0 :=
            Nat.cast_ne_zero.mpr (by simpa [List.length_eq_zero] using hmv)
          field_simp
        rw [hdata] at hy
        rcases List.mem_map.mp hy with ⟨x, hx, rfl⟩
        have hV : V ≠ 0 := fun hV0 => hm (by rw [hmean, hV0])
        rw [hconst x hx, hmean]
        field_simp

/-- PET image of the C3 witness: constant value 2 on two voxels. -/
def petW : Nifti := { data := [2, 2], shape := [2], affine := [[1]], header := [] }

/-- Reference mask of the C3 witness: both voxels selected. -/
def maskW : Nifti := { data := [1, 1], shape := [2], affine := [[0]], header := [] }

/-- C3 witness: the spec theorem at the constant-value-2 volume. -/
theorem compute_suvr_spec_witness :
    petW.shape = maskW.shape
    ∧ (((∃ r, compute_suvr petW maskW = .error (.valueError r))
        ↔ maskedValues petW.data maskW.data = [] ∨ refMean petW.data maskW.data = 0)
      ∧ (∀ out, compute_suvr petW maskW = .ok out →
          out.data = petW.data.map (fun x => x / refMean petW.data maskW.data)
            ∧ out.affine = petW.affine ∧ out.header = petW.header)
      ∧ (∀ (V : ℚ) (out : Nifti), (∀ x ∈ petW.data, x = V) →
          compute_suvr petW maskW = .ok out → ∀ y ∈ out.data, y = 1)) :=
  ⟨rfl, compute_suvr_spec petW maskW rfl⟩

/-- C2: the definition of compute_suvr has three parameters and no
defaults, so the four-positional-argument call made by run_pup raises
TypeError; with the fourth optional FOV parameter the claim describes, the
same call would succeed. -/
theorem run_pup_compute_suvr_call_fails :
    pyPositionalCall compute_suvr_num_params compute_suvr_num_defaults run_pup_suvr_call_nargs
      = .error .typeError
    ∧ pyPositionalCall (compute_suvr_num_params + 1) (compute_suvr_num_defaults + 1)
        run_pup_suvr_call_nargs = .ok () := by
  constructor <;> rfl

theorem foldl_npAdd_finite (qs : List (ℚ × ℕ)) (acc : ℚ) :
    List.foldl npAdd (.finite acc) (qs.map (fun p => npMul (.finite p.1) (.finite (p.2 : ℚ))))
      = .finite (acc + (qs.map (fun p => p.1 * (p.2 : ℚ))).sum) := by
  induction qs generalizing acc with
  | nil => simp
  | cons a t ih =>
    rw [List.map_cons, List.foldl_cons]
    have hstep : npAdd (NpVal.finite acc) (npMul (NpVal.finite a.1) (NpVal.finite (a.2 : ℚ)))
        = NpVal.finite (acc + a.1 * (a.2 : ℚ)) := by
      simp [npMul, npAdd]
    rw [hstep, ih, List.map_cons, List.sum_cons]
    exact congrArg NpVal.finite (by ring)

/-- C8: for a Mode A named ROI, calculate_suvr emits one row with
total_voxels = sum(NVoxels), Mean_Signal = sum(Mean_Signal*NVoxels) /
total_voxels and SUVR = Mean_Signal / reference value over the
case-insensitive substring matches; with no match it emits the zero row
(NVoxels=0, Mean_Signal=0, SUVR=0) with a printed warning and no
exception.  The last two conjuncts pin the numpy arithmetic down to the
exact rational formulas on finite inputs with a non-zero total. -/
theorem calculate_suvr_modeA_spec (df : List Row) (ref : NpVal) (roiName : String) :
    (matchingRows df roiName = [] →
        modeAStep df ref roiName
          = { structureID := none, structureName := roiName,
              meanSignal := .finite 0, nvoxels := 0, suvr := some (.finite 0) }
        ∧ modeAWarns df roiName = true)
    ∧ (matchingRows df roiName ≠ [] →
        modeAStep df ref roiName
          = { structureID := none, structureName := roiName,
              meanSignal := npDiv (npSum ((matchingRows df roiName).map
                  (fun r => npMul r.meanSignal (.finite (r.nvoxels : ℚ)))))
                (.finite ((((matchingRows df roiName).map Row.nvoxels).sum : ℕ) : ℚ)),
              nvoxels := ((matchingRows df roiName).map Row.nvoxels).sum,
              suvr := some (npDiv (npDiv (npSum ((matchingRows df roiName).map
                  (fun r => npMul r.meanSignal (.finite (r.nvoxels : ℚ)))))
                (.finite ((((matchingRows df roiName).map Row.nvoxels).sum : ℕ) : ℚ))) ref) }
        ∧ modeAWarns df roiName = false)
    ∧ (∀ ms : List (ℚ × ℕ),
        npSum (ms.map (fun p => npMul (.finite p.1) (.finite (p.2 : ℚ))))
          = .finite ((ms.map (fun p => p.1 * (p.2 : ℚ))).sum))
    ∧ (∀ a b : ℚ, b ≠ 0 → npDiv (.finite a) (.finite b) = .finite (a / b)) := by
  refine ⟨?_, ?_, ?_, ?_⟩
  · intro h
    constructor
    · simp [modeAStep, h]
    · simp [modeAWarns, h]
  · intro h
    constructor
    · simp [modeAStep, h]
    · rw [modeAWarns]
      cases hm : matchingRows df roiName with
      | nil => exact absurd hm h
      | cons a t => rfl
  · intro ms
    have := foldl_npAdd_finite ms 0
    simpa [npSum] using this
  · intro a b hb
    simp [npDiv, hb]

/-- The one-row table of the C8 witness. -/
def dfModeA : List Row :=
  [{ structureID := some 1, structureName := "ctx-precuneus",
     meanSignal := .finite 2, nvoxels := 3, suvr := some (.finite 1) }]

/-- C8 witness: "precuneus" matches the single row case-insensitively and
the emitted row carries the weighted statistics; and the arithmetic
conjuncts at 2*3/3 = 2. -/
theorem calculate_suvr_modeA_spec_witness :
    matchingRows dfModeA "precuneus" ≠ []
    ∧ (modeAStep dfModeA (.finite 2) "precuneus"
        = { structureID := none, structureName := "precuneus",
            meanSignal := npDiv (npSum ((matchingRows dfModeA "precuneus").map
                (fun r => npMul r.meanSignal (.finite (r.nvoxels : ℚ)))))
              (.finite ((((matchingRows dfModeA "precuneus").map Row.nvoxels).sum : ℕ) : ℚ)),
            nvoxels := ((matchingRows dfModeA "precuneus").map Row.nvoxels).sum,
            suvr := some (npDiv (npDiv (npSum ((matchingRows dfModeA "precuneus").map
                (fun r => npMul r.meanSignal (.finite (r.nvoxels : ℚ)))))
              (.finite ((((matchingRows dfModeA "precuneus").map Row.nvoxels).sum : ℕ) : ℚ)))
              (.finite 2)) }
        ∧ modeAWarns dfModeA "precuneus" = false) :=
  ⟨by decide,
   (calculate_suvr_modeA_spec dfModeA (.finite 2) "precuneus").2.1 (by decide)⟩

/-- C9 counterexample: a labels file listing label 5 before label 2 makes
extract_suv emit the row for 5 first — the output follows the labels-file
order, not the ascending order of the distinct label IDs. -/
theorem extract_suv_order_cex :
    (extract_suv [2, 5] [1, 1] [(5, "A"), (2, "B")] none).map SuvRow.label = [5, 2]
    ∧ ¬ List.Sorted (· ≤ ·)
        ((extract_suv [2, 5] [1, 1] [(5, "A"), (2, "B")] none).map SuvRow.label) := by
  have h : (extract_suv [2, 5] [1, 1] [(5, "A"), (2, "B")] none).map SuvRow.label = [5, 2] := by
    norm_num [extract_suv, suvRowFor, atlasWithFov, List.zip, List.filter]
  refine ⟨h, ?_⟩
  rw [h]
  intro hs
  rw [List.sorted_cons] at hs
  exact absurd (hs.1 2 (by simp)) (by decide)

/-- C9 amended: extract_suv emits exactly one row per labels-file entry,
in the order the entries appear in the labels file (duplicates and labels
absent from the atlas included). -/
theorem extract_suv_rows_follow_labels_file (atlasData : List ℤ) (petData : List ℚ)
    (labelsList : List (ℤ × String)) (fov : Option (List ℚ)) :
    (extract_suv atlasData petData labelsList fov).map SuvRow.label
        = labelsList.map Prod.fst
    ∧ (extract_suv atlasData petData labelsList fov).map SuvRow.roiName
        = labelsList.map Prod.snd
    ∧ (extract_suv atlasData petData labelsList fov).length = labelsList.length := by
  refine ⟨?_, ?_, ?_⟩
  · unfold extract_suv
    rw [List.map_map]
    refine List.map_congr_left (fun p _ => ?_)
    show (suvRowFor (atlasWithFov atlasData fov) petData p.1 p.2).label = p.1
    unfold suvRowFor
    dsimp only
    split <;> rfl
  · unfold extract_suv
    rw [List.map_map]
    refine List.map_congr_left (fun p _ => ?_)
    show (suvRowFor (atlasWithFov atlasData fov) petData p.1 p.2).roiName = p.2
    unfold suvRowFor
    dsimp only
    split <;> rfl
  · unfold extract_suv
    rw [List.length_map]
